import Mathlib

/-!
Verification of the stock-scan rule engine of this repository
(comprehensive_strategy_v4.py, stock_strategy_picker.py,
weekly_trend_filter.py) against its natural-language specification.

Shallow embedding conventions:
* a pandas DataFrame column becomes a `List ℚ`; Python float NaN
  (undefined rolling positions) becomes `Option ℚ`, and any comparison
  involving `none` is `false`, matching Python's NaN comparison rules;
* Python loops with conditional `append`/`break` become `List.range'`
  with `filter`/`any`;
* fallible steps (CSV reading, column parsing) become `Except`/`Option`,
  and a bare `try/except: return None` becomes pattern matching that
  maps every failure to `none`.
-/

/-- One instrument's daily frame, after column renaming: the `close`,
`low`, `high`, `open`, `volume` and `pct_chg` columns of the CSV.
(`open` is a Lean keyword, so that column is called `opn`.) -/
structure DF where
  opn : List ℚ
  high : List ℚ
  low : List ℚ
  close : List ℚ
  volume : List ℚ
  pct_chg : List ℚ
deriving Repr, DecidableEq

namespace DF

/-- `len(df)`: number of rows, read off the close column. -/
def len (df : DF) : ℕ := df.close.length

end DF

/-- Indexing a column, `xs[i]` for a valid index (out-of-range reads
default to 0; every access in the embedded code is guarded). -/
def colAt (xs : List ℚ) (i : ℕ) : ℚ := xs.getD i 0

/-- Python `max(...)` over a list, as used on the nonempty volume slice
`v[idx-20:idx+1]`. -/
def pyMax : List ℚ → ℚ
  | [] => 0
  | x :: r => r.foldl max x

/-- `series.rolling(w).mean()` evaluated at position `i`:
`NaN` (here `none`) while fewer than `w` samples are available or the
index is out of range, otherwise the mean of positions `[i-w+1, i]`. -/
def smaAt (xs : List ℚ) (w i : ℕ) : Option ℚ :=
  if w ≤ i + 1 ∧ i < xs.length then
    some ((((xs.drop (i + 1 - w)).take w).foldl (· + ·) 0) / w)
  else none

/-- `x > a` where `a` may be NaN: false on `none`, like Python. -/
def gtO (x : ℚ) (a : Option ℚ) : Bool :=
  match a with
  | some y => decide (x > y)
  | none => false

/-- `x ≥ a` where `a` may be NaN: false on `none`. -/
def geO (x : ℚ) (a : Option ℚ) : Bool :=
  match a with
  | some y => decide (x ≥ y)
  | none => false

/-- `x ≤ a` where `a` may be NaN: false on `none`. -/
def leO (x : ℚ) (a : Option ℚ) : Bool :=
  match a with
  | some y => decide (x ≤ y)
  | none => false

/-- `a > b` on two possibly-NaN values: false if either is `none`. -/
def oGTo (a b : Option ℚ) : Bool :=
  match a, b with
  | some x, some y => decide (x > y)
  | _, _ => false

/-- `all(l[idx:] >= l[idx])`: every low from position `idx` on holds at
or above the low at `idx`. -/
def lowsHeldFrom (df : DF) (idx : ℕ) : Bool :=
  (df.low.drop idx).all (fun x => decide (x ≥ colAt df.low idx))

/-- Strategy 1 「隔山打牛」 of `check_all_strategies`
(comprehensive_strategy_v4.py lines 30–37).  The Python loop runs
`i = 2 .. 14`, anchor `idx = len(df) - i`; on an anchor whose previous
bar gained more than 9.5 %, which is bearish and whose volume is the
maximum of `v[idx-20 : idx+1]`, it scans `j = idx+1 .. len-1` for a
bearish bar with volume below half the anchor's; the first such `j`
that also satisfies the confirm test appends the name and breaks the
*inner* loop only — so one name is appended per qualifying anchor. -/
def strat1 (df : DF) : List String :=
  ((List.range' 2 13).filter (fun i =>
    decide (colAt df.pct_chg (df.len - i - 1) > 9.5) &&
    decide (colAt df.close (df.len - i) < colAt df.opn (df.len - i)) &&
    decide (colAt df.volume (df.len - i) =
      pyMax ((df.volume.drop (df.len - i - 20)).take 21)) &&
    ((List.range' (df.len - i + 1) (df.len - (df.len - i + 1))).any (fun j =>
      decide (colAt df.close j < colAt df.opn j) &&
      decide (colAt df.volume j < colAt df.volume (df.len - i) * 0.5) &&
      (decide (colAt df.close (df.len - 1) > colAt df.high j) &&
        lowsHeldFrom df (df.len - i))))
    )).map (fun _ => "隔山打牛")

/-- Strategy 2 「高量不破」 (lines 40–45): scan `i = 1 .. 9`,
`idx = len(df)-1-i`, for a bullish bar with volume above 2.5× its
5-day volume average whose low is never undercut afterwards and whose
high today's close exceeds; `break` fires on the first hit, so the name
is appended at most once. -/
def strat2cond (df : DF) : Bool :=
  let n := df.len
  let c := colAt df.close
  let o := colAt df.opn
  let h := colAt df.high
  let v := colAt df.volume
  (List.range' 1 9).any (fun i =>
    let idx := n - 1 - i
    gtO (v idx) ((smaAt df.volume 5 idx).map (· * 2.5)) &&
    decide (c idx > o idx) &&
    ((df.low.drop (idx + 1)).all (fun x => decide (x ≥ colAt df.low idx)) &&
     decide (c (n - 1) > h idx)))

/-- The conditional append of strategy 2. -/
def strat2 (df : DF) : List String :=
  if strat2cond df then ["高量不破"] else []

/-- Strategy 3 「三位一体」 (line 48): close crosses above MA60 today
(yesterday at or below) on volume above 1.5× the 5-day volume average. -/
def strat3cond (df : DF) : Bool :=
  let n := df.len
  let c := colAt df.close
  let v := colAt df.volume
  gtO (c (n - 1)) (smaAt df.close 60 (n - 1)) &&
    leO (c (n - 2)) (smaAt df.close 60 (n - 2)) &&
    gtO (v (n - 1)) ((smaAt df.volume 5 (n - 1)).map (· * 1.5))

/-- The conditional append of strategy 3. -/
def strat3 (df : DF) : List String :=
  if strat3cond df then ["三位一体"] else []

/-- Strategy 4 「草上飞」 (lines 52–54): MA5 > MA13 > MA21 with the low
at or above MA13, and — nested condition — close above MA5 on volume
above the 5-day volume average. -/
def strat4cond (df : DF) : Bool :=
  let n := df.len
  let c := colAt df.close
  let l := colAt df.low
  let v := colAt df.volume
  (oGTo (smaAt df.close 5 (n - 1)) (smaAt df.close 13 (n - 1)) &&
    oGTo (smaAt df.close 13 (n - 1)) (smaAt df.close 21 (n - 1)) &&
    geO (l (n - 1)) (smaAt df.close 13 (n - 1))) &&
  (gtO (c (n - 1)) (smaAt df.close 5 (n - 1)) &&
    gtO (v (n - 1)) (smaAt df.volume 5 (n - 1)))

/-- The conditional append of strategy 4. -/
def strat4 (df : DF) : List String :=
  if strat4cond df then ["草上飞"] else []

/-- Strategy 5 「追涨停」 (lines 57–59): yesterday gained more than
9.5 %, today is a bullish bar on lower volume, and today's close is
within 2 % of yesterday's high. -/
def strat5cond (df : DF) : Bool :=
  let n := df.len
  let c := colAt df.close
  let o := colAt df.opn
  let h := colAt df.high
  let v := colAt df.volume
  let p := colAt df.pct_chg
  decide (3 ≤ df.len) && decide (p (n - 2) > 9.5) &&
    decide (v (n - 1) < v (n - 2)) && decide (c (n - 1) > o (n - 1)) &&
    decide (c (n - 1) > h (n - 2) * 0.98)

/-- The conditional append of strategy 5. -/
def strat5 (df : DF) : List String :=
  if strat5cond df then ["追涨停"] else []

/-- `check_all_strategies` (comprehensive_strategy_v4.py lines 20–61):
below 65 rows no rule is evaluated; otherwise the hit names of the five
strategies, in program order of the appends. -/
def check_all_strategies (df : DF) : List String :=
  if df.len < 65 then []
  else strat1 df ++ strat2 df ++ strat3 df ++ strat4 df ++ strat5 df

/-- One per-instrument scan result of comprehensive_strategy_v4.py's
`process_stock`: the dict `{'code', 'strategies', 'last_pct'}`. -/
structure ScanRes where
  code : String
  strategies : List String
  last_pct : ℚ
deriving DecidableEq, Repr

/-- The bucket construction of `main` (comprehensive_strategy_v4.py lines
91–97): for each result `r` and each occurrence of a strategy name `s` in
`r['strategies']`, one record of `r` is appended to bucket `s`.  The name
join with the registry happens at the sink and is out of scope, so bucket
entries keep the `ScanRes` shape. -/
def buckets (results : List ScanRes) (s : String) : List ScanRes :=
  results.flatMap (fun r => (r.strategies.filter (fun t => t == s)).map (fun _ => r))

/-- The comparison used by `sort_values(by='今日涨幅', ascending=False)`:
`a` may come before `b` iff `a`'s latest percent change is at least `b`'s.
Only this column is compared; instrument identifiers never are. -/
def pctGe (a b : ScanRes) : Prop := b.last_pct ≤ a.last_pct

instance : DecidableRel pctGe := fun a b =>
  inferInstanceAs (Decidable (b.last_pct ≤ a.last_pct))

instance : IsTotal ScanRes pctGe := ⟨fun a b => le_total b.last_pct a.last_pct⟩

instance : IsTrans ScanRes pctGe := ⟨fun _ _ _ h1 h2 => le_trans h2 h1⟩

/-- The per-bucket sort of `main`: order records descending by the latest
percent change, comparing only that column.  The source's
`sort_values(by='今日涨幅', ascending=False)` guarantees just a
key-descending permutation of the bucket; its default numpy quicksort
leaves the relative order of tied records unspecified (a deterministic
implementation detail, unstable above numpy's small-sort threshold).
This executable model uses an insertion sort and is therefore relied on
for tie order only at small inputs (here: three records), where numpy
also uses its stable small-array insertion sort and thus provably
produces the same output as the model. -/
def sortRecords (l : List ScanRes) : List ScanRes := List.insertionSort pctGe l

/-- One row of stock_strategy_picker.py's frame: the `日期`, `收盘`,
`成交量`, `涨跌幅`, `换手率` fields used by `analyze_stock` (dates as day
ordinals). -/
structure SBar where
  date : ℕ
  close : ℚ
  volume : ℚ
  pct_chg : ℚ
  turnover : ℚ
deriving DecidableEq, Repr

/-- The result dict of `analyze_stock` (the display rounding of the
volume-to-average ratio is not modeled). -/
structure SRec where
  code : String
  name : String
  date : ℕ
  close : ℚ
  pct_chg : ℚ
  vol_ratio : ℚ
  turnover : ℚ
deriving DecidableEq, Repr

/-- Python's substring test `pat in hay` on character lists. -/
def containsSeq (pat : List Char) : List Char → Bool
  | [] => pat.isEmpty
  | c :: rest => pat.isPrefixOf (c :: rest) || containsSeq pat rest

/-- `any(keyword in name for keyword in ['ST', '退', '*'])`
(stock_strategy_picker.py line 29). -/
def hasExcludedMark (name : String) : Bool :=
  containsSeq (("ST").data) name.data || containsSeq (("退").data) name.data ||
    containsSeq (("*").data) name.data

/-- `analyze_stock` (stock_strategy_picker.py lines 13–73) on an
already-read, date-sorted frame: series shorter than
`MA_SLOW + VMA_WINDOW = 60` rows and excluded names yield `None`; then
the four sub-conditions over the trailing `LOOKBACK_WINDOW = 6` bars are
required conjunctively. -/
def analyze_stock (code name : String) (rows : List SBar) : Option SRec :=
  if rows.length < 55 + 5 then none
  else if hasExcludedMark name then none
  else if
      ((rows.drop (rows.length - 6)).take 5).any (fun b => decide (b.pct_chg ≥ 9.8)) &&
      (oGTo (smaAt (rows.map SBar.close) 13 (rows.length - 1))
          (smaAt (rows.map SBar.close) 55 (rows.length - 1)) &&
        geO (rows.getLastD ⟨0, 0, 0, 0, 0⟩).close
          ((smaAt (rows.map SBar.close) 13 (rows.length - 1)).map (· * 0.99))) &&
      decide ((((rows.drop (rows.length - 6)).take 5).getLastD ⟨0, 0, 0, 0, 0⟩).volume <
        pyMax (((rows.drop (rows.length - 6)).take 5).map SBar.volume) * 0.7) &&
      decide ((rows.getLastD ⟨0, 0, 0, 0, 0⟩).pct_chg > 1.0) &&
      (decide ((rows.getLastD ⟨0, 0, 0, 0, 0⟩).volume >
          (((rows.drop (rows.length - 6)).take 5).getLastD ⟨0, 0, 0, 0, 0⟩).volume) &&
        gtO (rows.getLastD ⟨0, 0, 0, 0, 0⟩).volume
          (smaAt (rows.map SBar.volume) 5 (rows.length - 1)))
    then
    some { code := code, name := name,
           date := (rows.getLastD ⟨0, 0, 0, 0, 0⟩).date,
           close := (rows.getLastD ⟨0, 0, 0, 0, 0⟩).close,
           pct_chg := (rows.getLastD ⟨0, 0, 0, 0, 0⟩).pct_chg,
           vol_ratio := (rows.getLastD ⟨0, 0, 0, 0, 0⟩).volume /
             ((smaAt (rows.map SBar.volume) 5 (rows.length - 1)).getD 1),
           turnover := (rows.getLastD ⟨0, 0, 0, 0, 0⟩).turnover }
  else none

/-- Mean of the last `w` entries: the value a `w`-rolling mean takes at
the final position.  Spec-side counterpart of `smaAt` at the last row. -/
def tailMean (xs : List ℚ) (w : ℕ) : ℚ :=
  (((xs.drop (xs.length - w)).take w).foldl (· + ·) 0) / w

/-- One raw CSV row of the v4 scan; `none` marks a missing column or an
unparseable value (e.g. a percent string that fails float conversion). -/
structure RawRow where
  opn : Option ℚ
  high : Option ℚ
  low : Option ℚ
  close : Option ℚ
  volume : Option ℚ
  pct_chg : Option ℚ
deriving DecidableEq, Repr

/-- A fully parsed v4 row. -/
structure Row where
  opn : ℚ
  high : ℚ
  low : ℚ
  close : ℚ
  volume : ℚ
  pct_chg : ℚ
deriving DecidableEq, Repr

/-- Parsing one row: every field must be present and numeric. -/
def parseRow (r : RawRow) : Option Row :=
  match r.opn, r.high, r.low, r.close, r.volume, r.pct_chg with
  | some a, some b, some c, some d, some e, some f => some ⟨a, b, c, d, e, f⟩
  | _, _, _, _, _, _ => none

/-- Parsing a frame: any malformed row fails the whole frame (in the
source the resulting exception is caught per instrument). -/
def parseRows : List RawRow → Option (List Row)
  | [] => some []
  | r :: rest =>
    match parseRow r, parseRows rest with
    | some x, some xs => some (x :: xs)
    | _, _ => none

/-- Column view of a parsed v4 frame. -/
def toDF (rows : List Row) : DF :=
  { opn := rows.map Row.opn, high := rows.map Row.high, low := rows.map Row.low,
    close := rows.map Row.close, volume := rows.map Row.volume,
    pct_chg := rows.map Row.pct_chg }

namespace V4

/-- `process_stock` of comprehensive_strategy_v4.py (lines 63–76): codes
with prefix 30 or 68 are dropped before any data is read; a read error or
a malformed row is swallowed by the `try/except` into `None`; an empty
hit list is `None`. -/
def process_stock (code : String) (raw : Except String (List RawRow)) : Option ScanRes :=
  if code.startsWith ("30") || code.startsWith ("68") then none
  else
    match raw with
    | Except.error _ => none
    | Except.ok rrows =>
      match parseRows rrows with
      | none => none
      | some rows =>
        let df := toDF rows
        let hit_list := check_all_strategies df
        if hit_list.isEmpty then none
        else some { code := code, strategies := hit_list,
                    last_pct := df.pct_chg.getLastD 0 }

/-- `results = [r for r in executor.map(process_stock, files) if r is not None]`
(line 86): the per-instrument scan over a list of inputs, dropping the
`None` results. -/
def scan (files : List (String × Except String (List RawRow))) : List ScanRes :=
  (files.map (fun f => process_stock f.1 f.2)).reduceOption

end V4

/-- One raw CSV row of the picker (date, close, volume, pct, turnover). -/
structure RawSRow where
  date : Option ℕ
  close : Option ℚ
  volume : Option ℚ
  pct_chg : Option ℚ
  turnover : Option ℚ
deriving DecidableEq, Repr

/-- Parsing one picker row. -/
def parseSRow (r : RawSRow) : Option SBar :=
  match r.date, r.close, r.volume, r.pct_chg, r.turnover with
  | some a, some b, some c, some d, some e => some ⟨a, b, c, d, e⟩
  | _, _, _, _, _ => none

/-- Parsing a picker frame; any malformed row fails the frame. -/
def parseSRows : List RawSRow → Option (List SBar)
  | [] => some []
  | r :: rest =>
    match parseSRow r, parseSRows rest with
    | some x, some xs => some (x :: xs)
    | _, _ => none

/-- `analyze_stock` including its enclosing `try/except` and CSV read:
every input failure becomes `None`. -/
def analyze_stock_raw (code name : String) (raw : Except String (List RawSRow)) :
    Option SRec :=
  match raw with
  | Except.error _ => none
  | Except.ok rrows =>
    match parseSRows rrows with
    | none => none
    | some rows => analyze_stock code name rows

/-- The picker scan over many instruments, dropping `None`
(stock_strategy_picker.py line 94). -/
def pickerScan (files : List (String × String × Except String (List RawSRow))) :
    List SRec :=
  (files.map (fun f => analyze_stock_raw f.1 f.2.1 f.2.2)).reduceOption

/-- `series.ewm(span, adjust=False).mean()` as a recurrence on an indexed
sequence: seeded with the first value, then
`ema[i] = x[i]*a + ema[i-1]*(1-a)` with `a = 2/(span+1)`. -/
def emaF (a : ℚ) (f : ℕ → ℚ) : ℕ → ℚ
  | 0 => f 0
  | i + 1 => f (i + 1) * a + emaF a f i * (1 - a)

/-- The DIF line of `calculate_macd` (weekly_trend_filter.py lines 22–28)
at position `i`: EMA(span 12) minus EMA(span 26) of the closes, so the
smoothing factors are `2/13` and `2/27`. -/
def difAt (xs : List ℚ) (i : ℕ) : ℚ :=
  emaF (2 / 13) (colAt xs) i - emaF (2 / 27) (colAt xs) i

/-- The DEA line of `calculate_macd`: EMA(span 9) of the DIF line. -/
def deaAt (xs : List ℚ) (i : ℕ) : ℚ := emaF (2 / 10) (difAt xs) i

/-- Python `min(...)` over a nonempty list. -/
def pyMin : List ℚ → ℚ
  | [] => 0
  | x :: r => r.foldl min x

/-- One bar of weekly_trend_filter.py's frame after renaming (daily or
weekly granularity), dates as day ordinals. -/
structure WBar where
  date : ℕ
  opn : ℚ
  high : ℚ
  low : ℚ
  close : ℚ
  volume : ℚ
deriving DecidableEq, Repr

/-- One raw CSV row of the weekly filter. -/
structure RawWRow where
  date : Option ℕ
  opn : Option ℚ
  high : Option ℚ
  low : Option ℚ
  close : Option ℚ
  volume : Option ℚ
deriving DecidableEq, Repr

/-- Parsing one weekly-filter row. -/
def parseWRow (r : RawWRow) : Option WBar :=
  match r.date, r.opn, r.high, r.low, r.close, r.volume with
  | some a, some b, some c, some d, some e, some f => some ⟨a, b, c, d, e, f⟩
  | _, _, _, _, _, _ => none

/-- Parsing a weekly-filter frame; any malformed row fails the frame. -/
def parseWRows : List RawWRow → Option (List WBar)
  | [] => some []
  | r :: rest =>
    match parseWRow r, parseWRows rest with
    | some x, some xs => some (x :: xs)
    | _, _ => none

namespace Weekly

/-- The calendar-week key of a bar: pandas `resample('W')` bins rows into
consecutive 7-day buckets of the timeline (the model fixes the week
boundary at multiples of 7 of the day ordinal). -/
def wkey (b : WBar) : ℕ := b.date / 7

/-- The aggregation dict of the resample (weekly_trend_filter.py lines
75–81): `open` first, `high` max, `low` min, `close` last, `volume` sum;
the row is labeled with the week-ending day. -/
def aggWeek (k : ℕ) (g : List WBar) : WBar :=
  { date := 7 * k + 6
    opn := (g.headD ⟨0, 0, 0, 0, 0, 0⟩).opn
    high := pyMax (g.map WBar.high)
    low := pyMin (g.map WBar.low)
    close := (g.getLastD ⟨0, 0, 0, 0, 0, 0⟩).close
    volume := (g.map WBar.volume).foldl (· + ·) 0 }

/-- `df.resample('W', on='date').agg({...}).dropna()`: one bin per week
from the first to the last week of the series; a bin with no rows
aggregates to an all-NaN row, which `dropna` removes. -/
def resample_weekly (s : List WBar) : List WBar :=
  if s.isEmpty then []
  else
    (List.range' ((s.map wkey).foldl min ((s.map wkey).headD 0))
      ((s.map wkey).foldl max ((s.map wkey).headD 0) + 1 -
        (s.map wkey).foldl min ((s.map wkey).headD 0))).filterMap (fun k =>
      if (s.filter (fun b => wkey b == k)).isEmpty then none
      else some (aggWeek k (s.filter (fun b => wkey b == k))))

/-- Spec-side description: the calendar weeks with at least one
contributing bar, in order of first appearance (ascending once the
series is date-sorted). -/
def presentWeeks (s : List WBar) : List ℕ := (s.map wkey).dedup

/-- `check_strategy` (weekly_trend_filter.py lines 30–51): DIF and DEA
above zero, DIF above DEA, and the latest volume above 1.3× the mean of
the previous five volumes (`iloc[-6:-1]`); series shorter than 35 rows
never match. -/
def check_strategy (rows : List WBar) : Bool :=
  if rows.length < 35 then false
  else
    let n := rows.length
    let closes := rows.map WBar.close
    let vols := rows.map WBar.volume
    let last_dif := difAt closes (n - 1)
    let last_dea := deaAt closes (n - 1)
    let last_vol := colAt vols (n - 1)
    let avg_vol := (((vols.drop (n - 6)).take 5).foldl (· + ·) 0) / 5
    decide (last_dif > 0) && decide (last_dea > 0) &&
      decide (last_dif > last_dea) && decide (last_vol > avg_vol * 1.3)

/-- The result dict of weekly_trend_filter.py's `process_stock`. -/
structure WRes where
  code : String
  daily : Bool
  weekly : Bool
deriving DecidableEq, Repr

/-- `process_stock` of weekly_trend_filter.py (lines 53–86): prefix-30
codes are dropped before any read; read/parse failures are swallowed to
`None`; empty or short frames and last closes outside the 5.0–20.0 price
band are dropped; otherwise the daily and weekly rule verdicts. -/
def process_stock (code : String) (raw : Except String (List RawWRow)) : Option WRes :=
  if code.startsWith ("30") then none
  else
    match raw with
    | Except.error _ => none
    | Except.ok rrows =>
      match parseWRows rrows with
      | none => none
      | some rows =>
        if rows.isEmpty || rows.length < 30 then none
        else
          let last_price := (rows.map WBar.close).getLastD 0
          if !(decide ((5 : ℚ) ≤ last_price) && decide (last_price ≤ 20)) then none
          else
            some { code := code, daily := check_strategy rows,
                   weekly := check_strategy (resample_weekly rows) }

end Weekly

/-- A 65-bar frame with two qualifying 「隔山打牛」 anchors (positions 51
and 52): both are bearish local volume maxima preceded by a bar gaining
9.9 %, bar 53 is the shrunk bearish pullback, no later low undercuts
them, and the final close clears the pullback's high. -/
def exC1 : DF :=
  { opn := List.replicate 64 10 ++ [21]
    high := List.replicate 53 10.5 ++ [9.5] ++ List.replicate 10 10.5 ++ [21]
    low := List.replicate 65 5
    close := List.replicate 64 9 ++ [20]
    volume := List.replicate 51 1 ++ [100, 100, 40] ++ List.replicate 11 1
    pct_chg := List.replicate 50 0 ++ [9.9, 9.9] ++ List.replicate 13 0 }

/-- The spec's breakout scenario as a literal 20-bar frame: bar 10 gains
9.9 % on the maximal volume so far and is bearish, bar 14 is the shrunk
bearish pullback, no low from bar 10 on undercuts bar 10's low, and the
final close clears bar 14's high. -/
def exC2 : DF :=
  { opn := List.replicate 19 10 ++ [21]
    high := List.replicate 14 10.5 ++ [9.5] ++ List.replicate 4 10.5 ++ [21]
    low := List.replicate 20 5
    close := List.replicate 19 9 ++ [20]
    volume := List.replicate 10 1 ++ [100] ++ List.replicate 3 1 ++ [50] ++
      List.replicate 5 1
    pct_chg := List.replicate 10 0 ++ [9.9] ++ List.replicate 9 0 }

/-- A 65-bar frame whose final bar has MA5 > MA13 > MA21, low above MA13
and volume above the 5-day volume average, but whose final close *equals*
MA5 exactly (10 = mean of 10,10,10,10,10). -/
def exC3 : DF :=
  { opn := List.replicate 65 11
    high := List.replicate 65 11
    low := List.replicate 65 9.5
    close := List.replicate 60 9 ++ List.replicate 5 10
    volume := List.replicate 64 1 ++ [10]
    pct_chg := List.replicate 65 0 }

/-- Like `exC3` but with the final close strictly above MA5, so the
fan-out rule fires. -/
def exC3w : DF :=
  { opn := List.replicate 65 11
    high := List.replicate 65 11
    low := List.replicate 65 9.5
    close := List.replicate 60 9 ++ List.replicate 4 10 ++ [10.5]
    volume := List.replicate 64 1 ++ [10]
    pct_chg := List.replicate 65 0 }

/-- Like `exC3` but with the final volume equal to 0.9× the 5-day volume
average (the average is 40/41, nine tenths of which is 36/41). -/
def exC3n : DF :=
  { opn := List.replicate 65 11
    high := List.replicate 65 11
    low := List.replicate 65 9.5
    close := List.replicate 60 9 ++ List.replicate 5 10
    volume := List.replicate 64 1 ++ [36 / 41]
    pct_chg := List.replicate 65 0 }

/-- Builder for literal picker rows (dates and turnover immaterial). -/
def mkSBar (c v p : ℚ) : SBar := ⟨0, c, v, p, 0⟩

/-- A 60-row picker frame satisfying all four retracement-confirm
sub-conditions: a 10 % gain at row 55, MA13 = 10 above MA55 ≈ 9.24 with
the close on support, a shrunk volume yesterday (10 against a window
maximum of 100), and a confirmed rebound today (gain 2 %, volume 50). -/
def ex4 : List SBar :=
  List.zipWith (fun c vp => mkSBar c vp.1 vp.2)
    (List.replicate 47 9 ++ List.replicate 13 10)
    ((List.replicate 54 (10 : ℚ) ++ [100, 10, 10, 10, 10, 50]).zip
      (List.replicate 55 (0 : ℚ) ++ [10, 0, 0, 0, 2]))

/-- Three scan records with equal ranking keys, insertion order 2, 1, 3
by code. -/
def rB : ScanRes := { code := "000002", strategies := [], last_pct := 5 }

/-- See `rB`. -/
def rA : ScanRes := { code := "000001", strategies := [], last_pct := 5 }

/-- See `rB`. -/
def rC : ScanRes := { code := "000003", strategies := [], last_pct := 5 }

/-- A 3-bar daily series spanning two calendar weeks (days 0, 1 and 8). -/
def s5 : List WBar :=
  [⟨0, 1, 2, 1, 3, 10⟩, ⟨1, 2, 3, 1, 2, 20⟩, ⟨8, 5, 6, 4, 5, 30⟩]

/-- A weekly-filter frame of 30 well-formed rows whose last close (30) is
above the 20.0 price cap. -/
def wrows30 : List RawWRow :=
  List.replicate 30
    { date := some 0, opn := some 1, high := some 1, low := some 1,
      close := some 30, volume := some 1 }

/-- The parsed form of `wrows30`. -/
def rows30 : List WBar := List.replicate 30 ⟨0, 1, 1, 1, 30, 1⟩

/-- A v4 row with every column missing or unparseable. -/
def badRow : RawRow := ⟨none, none, none, none, none, none⟩

/-- A picker row with every column missing or unparseable. -/
def badSRow : RawSRow := ⟨none, none, none, none, none⟩

set_option maxRecDepth 100000

theorem count_map_const {α β : Type} [BEq β] [LawfulBEq β] (l : List α) (x y : β) :
    (l.map (fun _ => x)).count y = if x == y then l.length else 0 := by
  rw [List.map_const', List.count_replicate]

theorem count_strat1_ne (df : DF) (y : String) (h : (("隔山打牛") == y) = false) :
    (strat1 df).count y = 0 := by
  unfold strat1
  rw [count_map_const, h]
  rfl

theorem count_ifSingleton (b : Bool) (x y : String) :
    (if b then [x] else []).count y = if b && (x == y) then 1 else 0 := by
  cases b <;> cases h : x == y <;>
    simp_all [List.count_cons, beq_iff_eq]

/-- C10: an instrument whose code starts with 30 or 68 (30 alone in the
weekly-trend generation) is dropped by the per-instrument scan before any
price data is read: the result is `none` for every possible raw input. -/
theorem code_prefix_exclusion :
    (∀ (code : String) (raw : Except String (List RawRow)),
        (code.startsWith ("30") = true ∨ code.startsWith ("68") = true) →
        V4.process_stock code raw = none) ∧
    (∀ (code : String) (raw : Except String (List RawWRow)),
        code.startsWith ("30") = true → Weekly.process_stock code raw = none) := by
  constructor
  · intro code raw h
    unfold V4.process_stock
    rcases h with h | h <;> simp [h]
  · intro code raw h
    unfold Weekly.process_stock
    simp [h]

/-- Witness for C10 at concrete codes and raw inputs. -/
theorem code_prefix_exclusion_witness :
    V4.process_stock ("300001") (Except.error ("e")) = none ∧
    Weekly.process_stock ("301234") (Except.ok []) = none :=
  ⟨code_prefix_exclusion.1 ("300001") (Except.error ("e"))
      (Or.inl (by with_unfolding_all decide)),
    code_prefix_exclusion.2 ("301234") (Except.ok []) (by with_unfolding_all decide)⟩

/-- C9: in the weekly-trend generation, an instrument whose last close is
below 5.0 or above 20.0 yields `none` from `process_stock`, so neither
the daily nor the weekly rule can report it. -/
theorem price_band_filter (code : String) (rrows : List RawWRow) (rows : List WBar)
    (hparse : parseWRows rrows = some rows)
    (hband : (rows.map WBar.close).getLastD 0 < 5 ∨
      20 < (rows.map WBar.close).getLastD 0) :
    Weekly.process_stock code (Except.ok rrows) = none := by
  unfold Weekly.process_stock
  by_cases h30 : code.startsWith ("30") = true
  · simp [h30]
  · simp only [Bool.not_eq_true] at h30
    simp only [h30, Bool.false_eq_true, if_false, hparse]
    by_cases hshort : (rows.isEmpty || decide (rows.length < 30)) = true
    · simp [hshort]
    · simp only [Bool.not_eq_true] at hshort
      simp only [hshort, Bool.false_eq_true, if_false]
      rcases hband with h | h
      · have h5 : decide ((5 : ℚ) ≤ (rows.map WBar.close).getLastD 0) = false :=
          decide_eq_false (not_le.mpr h)
        simp only [h5, Bool.false_and, Bool.not_false, if_true]
      · have h20 : decide ((rows.map WBar.close).getLastD 0 ≤ (20 : ℚ)) = false :=
          decide_eq_false (not_le.mpr h)
        simp only [h20, Bool.and_false, Bool.not_false, if_true]

/-- Witness for C9: thirty well-formed rows with last close 30. -/
theorem price_band_filter_witness :
    Weekly.process_stock ("000001") (Except.ok wrows30) = none :=
  price_band_filter ("000001") wrows30 rows30 (by with_unfolding_all rfl)
    (Or.inr (by with_unfolding_all decide))

/-- C1 counterexample: on `exC1` the 「隔山打牛」 rule fires once per
qualifying anchor — the hit list holds the name twice, and the instrument
appears twice in that rule's bucket, not exactly once. -/
theorem geshan_duplicate_hit :
    check_all_strategies exC1 = [("隔山打牛"), ("隔山打牛")] ∧
    (buckets [{ code := ("000001"), strategies := check_all_strategies exC1,
                last_pct := 0 }] ("隔山打牛")).length = 2 := by
  with_unfolding_all decide

/-- C1 amended: every rule except 「隔山打牛」 is reported at most once
per instrument (that rule can be reported once per qualifying anchor),
and an instrument's multiplicity in a bucket is exactly the number of
occurrences of that bucket's name in its hit list — in particular it
never lands in a bucket of a rule it did not match. -/
theorem bucket_multiplicity :
    (∀ df : DF,
      (check_all_strategies df).count ("高量不破") ≤ 1 ∧
      (check_all_strategies df).count ("三位一体") ≤ 1 ∧
      (check_all_strategies df).count ("草上飞") ≤ 1 ∧
      (check_all_strategies df).count ("追涨停") ≤ 1) ∧
    ∀ (results : List ScanRes) (s : String) (r : ScanRes),
      (buckets results s).count r = results.count r * (r.strategies.count s) := by
  constructor
  · intro df
    unfold check_all_strategies
    split
    · simp
    · refine ⟨?_, ?_, ?_, ?_⟩ <;>
        · simp only [strat2, strat3, strat4, strat5]
          rw [List.count_append, List.count_append, List.count_append,
            List.count_append, count_strat1_ne _ _ (by decide),
            count_ifSingleton, count_ifSingleton, count_ifSingleton,
            count_ifSingleton]
          split <;> split <;> split <;> split <;> simp_all [beq_iff_eq]
  · intro results s r
    induction results with
    | nil => simp [buckets]
    | cons x t ih =>
      have hblock :
          buckets (x :: t) s =
            ((x.strategies.filter (fun u => u == s)).map (fun _ => x)) ++
              buckets t s := by
        simp [buckets]
      have hlen : (x.strategies.filter (fun u => u == s)).length =
          x.strategies.count s := by
        rw [List.count_eq_countP, List.countP_eq_length_filter]
      rw [hblock, List.count_append, ih, count_map_const, List.count_cons, hlen]
      by_cases hrx : x = r
      · subst hrx
        simp only [beq_self_eq_true, if_true, Nat.add_mul, Nat.one_mul]
        omega
      · have h1 : (x == r) = false := beq_eq_false_iff_ne.mpr hrx
        simp [h1]

theorem gtO_some (x y : ℚ) : gtO x (some y) = decide (x > y) := rfl

theorem geO_some (x y : ℚ) : geO x (some y) = decide (x ≥ y) := rfl

theorem leO_some (x y : ℚ) : leO x (some y) = decide (x ≤ y) := rfl

theorem oGTo_some (x y : ℚ) : oGTo (some x) (some y) = decide (x > y) := rfl

theorem mem_strat1 {df : DF} {y : String} (h : y ∈ strat1 df) :
    y = ("隔山打牛") := by
  unfold strat1 at h
  rcases List.mem_map.mp h with ⟨a, _, heq⟩
  exact heq.symm

theorem mem_strat2 {df : DF} {y : String} (h : y ∈ strat2 df) :
    y = ("高量不破") := by
  unfold strat2 at h
  split at h
  · simpa using h
  · simp at h

theorem mem_strat3 {df : DF} {y : String} (h : y ∈ strat3 df) :
    y = ("三位一体") := by
  unfold strat3 at h
  split at h
  · simpa using h
  · simp at h

theorem mem_strat4 {df : DF} {y : String} (h : y ∈ strat4 df) :
    y = ("草上飞") ∧ strat4cond df = true := by
  unfold strat4 at h
  split at h
  · exact ⟨by simpa using h, by assumption⟩
  · simp at h

theorem mem_strat5 {df : DF} {y : String} (h : y ∈ strat5 df) :
    y = ("追涨停") := by
  unfold strat5 at h
  split at h
  · simpa using h
  · simp at h

/-- C2 counterexample: a 20-bar series realizing the spec's breakout
scenario verbatim — bar 10 gains 9.9 % on the maximal trailing volume and
is bearish, bar 14 is a bearish pullback at half volume, no low from bar
10 on undercuts bar 10's low, the final close clears bar 14's high — yet
the rule reports nothing, because `check_all_strategies` requires at
least 65 bars (and keys the anchor on the *previous* bar's gain). -/
theorem geshan_20bar_fails :
    exC2.len = 20 ∧
    colAt exC2.pct_chg 10 = 9.9 ∧
    colAt exC2.close 10 < colAt exC2.opn 10 ∧
    colAt exC2.volume 10 = pyMax (exC2.volume.take 11) ∧
    (colAt exC2.close 14 < colAt exC2.opn 14 ∧
      colAt exC2.volume 14 ≤ colAt exC2.volume 10 * 0.5) ∧
    lowsHeldFrom exC2 10 = true ∧
    colAt exC2.close 19 > colAt exC2.high 14 ∧
    ("隔山打牛") ∉ check_all_strategies exC2 := by
  with_unfolding_all decide

/-- C2 amended: on a series of at least 65 bars, if some anchor position
`len - i` with `2 ≤ i ≤ 14` has a previous-bar gain above 9.5, is bearish
and carries the maximal volume of its trailing 21-bar window, some later
bar `j` is bearish on less than half the anchor's volume with today's
close above `j`'s high, and no low from the anchor on undercuts the
anchor's low, then 「隔山打牛」 is reported. -/
theorem geshan_breakout (df : DF) (i : ℕ) (h2 : 2 ≤ i) (h14 : i ≤ 14)
    (hlen : 65 ≤ df.len)
    (hp : colAt df.pct_chg (df.len - i - 1) > 9.5)
    (hbear : colAt df.close (df.len - i) < colAt df.opn (df.len - i))
    (hvmax : colAt df.volume (df.len - i) =
      pyMax ((df.volume.drop (df.len - i - 20)).take 21))
    (j : ℕ) (hj1 : df.len - i < j) (hj2 : j < df.len)
    (hjbear : colAt df.close j < colAt df.opn j)
    (hjv : colAt df.volume j < colAt df.volume (df.len - i) * 0.5)
    (hconf : colAt df.close (df.len - 1) > colAt df.high j)
    (hlows : lowsHeldFrom df (df.len - i) = true) :
    ("隔山打牛") ∈ check_all_strategies df := by
  unfold check_all_strategies
  rw [if_neg (by omega)]
  apply List.mem_append_left
  apply List.mem_append_left
  apply List.mem_append_left
  apply List.mem_append_left
  unfold strat1
  refine List.mem_map.mpr ⟨i, ?_, rfl⟩
  refine List.mem_filter.mpr ⟨List.mem_range'_1.mpr ⟨h2, by omega⟩, ?_⟩
  simp only [Bool.and_eq_true, decide_eq_true_eq, List.any_eq_true]
  exact ⟨⟨⟨hp, hbear⟩, hvmax⟩, j, List.mem_range'_1.mpr ⟨by omega, by omega⟩,
    ⟨hjbear, hjv⟩, hconf, hlows⟩

/-- Witness for C2's amended statement: on `exC1` the anchor at position
52 (`i = 13`) with pullback bar 53 triggers the rule. -/
theorem geshan_breakout_witness : ("隔山打牛") ∈ check_all_strategies exC1 :=
  geshan_breakout exC1 13 (by decide) (by decide) (by decide)
    (by with_unfolding_all decide) (by with_unfolding_all decide)
    (by with_unfolding_all decide) 53 (by decide) (by decide)
    (by with_unfolding_all decide) (by with_unfolding_all decide)
    (by with_unfolding_all decide) (by with_unfolding_all decide)

/-- C3 counterexample: on `exC3` the final bar has MA5 > MA13 > MA21, its
close is at (hence at least) MA5 and its volume exceeds the 5-day volume
average — all of the claim's hypotheses — yet the fan-out rule does not
match, because the code requires the close *strictly above* MA5 (and the
low at or above MA13). -/
theorem caoshangfei_ge_fails :
    oGTo (smaAt exC3.close 5 64) (smaAt exC3.close 13 64) = true ∧
    oGTo (smaAt exC3.close 13 64) (smaAt exC3.close 21 64) = true ∧
    geO (colAt exC3.close 64) (smaAt exC3.close 5 64) = true ∧
    gtO (colAt exC3.volume 64) (smaAt exC3.volume 5 64) = true ∧
    ("草上飞") ∉ check_all_strategies exC3 := by
  with_unfolding_all decide

/-- C3 amended: on a series of at least 65 bars the fan-out rule matches
when MA5 > MA13 > MA21 at the final bar, the final low is at or above
MA13, the final close is *strictly above* MA5 and the final volume is
strictly above the 5-day volume average; and whenever the final volume
equals 0.9× a nonnegative 5-day volume average the rule does not match. -/
theorem caoshangfei_rule (df : DF) (hlen : 65 ≤ df.len) :
    (oGTo (smaAt df.close 5 (df.len - 1)) (smaAt df.close 13 (df.len - 1)) = true →
      oGTo (smaAt df.close 13 (df.len - 1)) (smaAt df.close 21 (df.len - 1)) = true →
      geO (colAt df.low (df.len - 1)) (smaAt df.close 13 (df.len - 1)) = true →
      gtO (colAt df.close (df.len - 1)) (smaAt df.close 5 (df.len - 1)) = true →
      gtO (colAt df.volume (df.len - 1)) (smaAt df.volume 5 (df.len - 1)) = true →
      ("草上飞") ∈ check_all_strategies df) ∧
    (∀ m : ℚ, smaAt df.volume 5 (df.len - 1) = some m → 0 ≤ m →
      colAt df.volume (df.len - 1) = 0.9 * m →
      ("草上飞") ∉ check_all_strategies df) := by
  constructor
  · intro h1 h2 h3 h4 h5
    unfold check_all_strategies
    rw [if_neg (by omega)]
    apply List.mem_append_left
    apply List.mem_append_right
    have hc : strat4cond df = true := by
      unfold strat4cond
      simp only [Bool.and_eq_true]
      exact ⟨⟨⟨h1, h2⟩, h3⟩, h4, h5⟩
    unfold strat4
    rw [hc]
    simp
  · intro m hm hm0 hv hmem
    unfold check_all_strategies at hmem
    rw [if_neg (by omega)] at hmem
    rcases List.mem_append.mp hmem with h | h5
    · rcases List.mem_append.mp h with h | h4
      · rcases List.mem_append.mp h with h | h3
        · rcases List.mem_append.mp h with h1 | h2
          · exact absurd (mem_strat1 h1) (by decide)
          · exact absurd (mem_strat2 h2) (by decide)
        · exact absurd (mem_strat3 h3) (by decide)
      · have hc := (mem_strat4 h4).2
        unfold strat4cond at hc
        simp only [Bool.and_eq_true] at hc
        have hg := hc.2.2
        rw [hm, gtO_some, decide_eq_true_eq, hv] at hg
        have : m < 0 := by linarith
        exact absurd hm0 (not_le.mpr this)
    · exact absurd (mem_strat5 h5) (by decide)

/-- Witness for C3: the rule fires on `exC3w` (close strictly above MA5)
and does not fire on `exC3n` (final volume 0.9× the 5-day average). -/
theorem caoshangfei_rule_witness :
    ("草上飞") ∈ check_all_strategies exC3w ∧
    ("草上飞") ∉ check_all_strategies exC3n :=
  ⟨(caoshangfei_rule exC3w (by decide)).1 (by with_unfolding_all decide)
      (by with_unfolding_all decide) (by with_unfolding_all decide)
      (by with_unfolding_all decide) (by with_unfolding_all decide),
    (caoshangfei_rule exC3n (by decide)).2 (40 / 41) (by with_unfolding_all rfl)
      (by with_unfolding_all decide) (by with_unfolding_all decide)⟩

theorem colAt_take (xs : List ℚ) (k i : ℕ) (h : i < k) :
    colAt (xs.take k) i = colAt xs i := by
  unfold colAt
  rw [List.getD_eq_getElem?_getD, List.getD_eq_getElem?_getD, List.getElem?_take]
  simp [h]

theorem smaAt_take (xs : List ℚ) (w k i : ℕ) (h : i < k) :
    smaAt (xs.take k) w i = smaAt xs w i := by
  unfold smaAt
  by_cases hc : w ≤ i + 1 ∧ i < xs.length
  · have hc' : w ≤ i + 1 ∧ i < (xs.take k).length := by
      refine ⟨hc.1, ?_⟩
      rw [List.length_take]
      omega
    rw [if_pos hc', if_pos hc]
    have hslice : ((xs.take k).drop (i + 1 - w)).take w =
        (xs.drop (i + 1 - w)).take w := by
      rw [List.drop_take, List.take_take, min_eq_left (by omega)]
    rw [hslice]
  · rw [if_neg, if_neg hc]
    intro hcontra
    apply hc
    refine ⟨hcontra.1, ?_⟩
    have h2 := hcontra.2
    rw [List.length_take] at h2
    omega

theorem emaF_congr (a : ℚ) (f g : ℕ → ℚ) (i : ℕ)
    (h : ∀ j : ℕ, j ≤ i → f j = g j) : emaF a f i = emaF a g i := by
  induction i with
  | zero => simpa [emaF] using h 0 le_rfl
  | succ n ih =>
    simp only [emaF]
    rw [h (n + 1) le_rfl, ih (fun j hj => h j (le_trans hj (Nat.le_succ n)))]

theorem difAt_take (xs : List ℚ) (k i : ℕ) (h : i < k) :
    difAt (xs.take k) i = difAt xs i := by
  unfold difAt
  rw [emaF_congr (2 / 13) (colAt (xs.take k)) (colAt xs) i
      (fun j hj => colAt_take xs k j (lt_of_le_of_lt hj h)),
    emaF_congr (2 / 27) (colAt (xs.take k)) (colAt xs) i
      (fun j hj => colAt_take xs k j (lt_of_le_of_lt hj h))]

/-- C6: the engine's indicators are causal — recomputing a rolling mean
(close or volume column alike), the DIF line or the DEA line on the
series truncated to its first `k` bars leaves every value at a position
strictly before `k` unchanged. -/
theorem indicator_causality (xs : List ℚ) (w k i : ℕ) (h : i < k) :
    smaAt (xs.take k) w i = smaAt xs w i ∧
    difAt (xs.take k) i = difAt xs i ∧
    deaAt (xs.take k) i = deaAt xs i :=
  ⟨smaAt_take xs w k i h, difAt_take xs k i h, by
    unfold deaAt
    exact emaF_congr (2 / 10) (difAt (xs.take k)) (difAt xs) i
      (fun j hj => difAt_take xs k j (lt_of_le_of_lt hj h))⟩

/-- Witness for C6 at a concrete 3-element series truncated to 2 bars. -/
theorem indicator_causality_witness :
    smaAt (List.take 2 [1, 2, 3]) 2 1 = smaAt [1, 2, 3] 2 1 ∧
    difAt (List.take 2 [1, 2, 3]) 1 = difAt [1, 2, 3] 1 ∧
    deaAt (List.take 2 [1, 2, 3]) 1 = deaAt [1, 2, 3] 1 :=
  indicator_causality [1, 2, 3] 2 2 1 (by decide)

/-- C8 counterexample: a three-record bucket with equal ranking keys
comes out of the sort in insertion order 000002, 000001, 000003 — the
tie is not broken by instrument identifier in either direction.  At
three elements numpy's sort falls into its stable small-array insertion
sort, so real `sort_values` demonstrably returns the same order as the
model on this input. -/
theorem sort_no_id_tiebreak :
    sortRecords [rB, rA, rC] = [rB, rA, rC] ∧
    (sortRecords [rB, rA, rC]).map ScanRes.code ≠
      [("000001"), ("000002"), ("000003")] ∧
    (sortRecords [rB, rA, rC]).map ScanRes.code ≠
      [("000003"), ("000002"), ("000001")] := by
  with_unfolding_all decide

/-- C8 amended: within every bucket the sort orders records descending
by the latest percent change and the output is a permutation of the
bucket — the whole contract `sort_values` gives.  Only the ranking key
is ever compared, so ties are *not* broken by instrument identifier
(see the counterexample); the relative order of tied records is an
unspecified, deterministic implementation detail of the sort for
buckets above numpy's small-sort threshold, and is not modeled. -/
theorem sorted_buckets (l : List ScanRes) :
    List.Sorted pctGe (sortRecords l) ∧ (sortRecords l).Perm l :=
  ⟨List.sorted_insertionSort pctGe l, List.perm_insertionSort pctGe l⟩

theorem parseRows_none {rrows : List RawRow} {r : RawRow} (hm : r ∈ rrows)
    (hr : parseRow r = none) : parseRows rrows = none := by
  induction rrows with
  | nil => cases hm
  | cons a t ih =>
    rcases List.mem_cons.mp hm with h | h
    · subst h
      unfold parseRows
      rw [hr]
    · unfold parseRows
      rw [ih h]
      cases parseRow a <;> rfl

theorem parseRows_length {rrows : List RawRow} {rows : List Row}
    (h : parseRows rrows = some rows) : rows.length = rrows.length := by
  induction rrows generalizing rows with
  | nil =>
    unfold parseRows at h
    cases h
    rfl
  | cons a t ih =>
    unfold parseRows at h
    cases hpa : parseRow a <;> rw [hpa] at h
    · simp at h
    · cases hpt : parseRows t <;> rw [hpt] at h
      · simp at h
      · simp only [Option.some.injEq] at h
        subst h
        simp [ih hpt]

theorem parseSRows_none {rrows : List RawSRow} {r : RawSRow} (hm : r ∈ rrows)
    (hr : parseSRow r = none) : parseSRows rrows = none := by
  induction rrows with
  | nil => cases hm
  | cons a t ih =>
    rcases List.mem_cons.mp hm with h | h
    · subst h
      unfold parseSRows
      rw [hr]
    · unfold parseSRows
      rw [ih h]
      cases parseSRow a <;> rfl

theorem parseSRows_length {rrows : List RawSRow} {rows : List SBar}
    (h : parseSRows rrows = some rows) : rows.length = rrows.length := by
  induction rrows generalizing rows with
  | nil =>
    unfold parseSRows at h
    cases h
    rfl
  | cons a t ih =>
    unfold parseSRows at h
    cases hpa : parseSRow a <;> rw [hpa] at h
    · simp at h
    · cases hpt : parseSRows t <;> rw [hpt] at h
      · simp at h
      · simp only [Option.some.injEq] at h
        subst h
        simp [ih hpt]

/-- C7: every failure is confined to its instrument — a read error, a
malformed row or a too-short series makes the per-instrument entry point
(`process_stock` of the v4 scan, `analyze_stock` of the picker) return
`none` rather than raise, and a failing instrument drops out of the scan
without changing any other instrument's result. -/
theorem error_isolation :
    (∀ code e : String, V4.process_stock code (Except.error e) = none) ∧
    (∀ (code : String) (rrows : List RawRow) (r : RawRow), r ∈ rrows →
      parseRow r = none → V4.process_stock code (Except.ok rrows) = none) ∧
    (∀ (code : String) (rrows : List RawRow), rrows.length < 65 →
      V4.process_stock code (Except.ok rrows) = none) ∧
    (∀ code name e : String, analyze_stock_raw code name (Except.error e) = none) ∧
    (∀ (code name : String) (rrows : List RawSRow) (r : RawSRow), r ∈ rrows →
      parseSRow r = none → analyze_stock_raw code name (Except.ok rrows) = none) ∧
    (∀ (code name : String) (rrows : List RawSRow), rrows.length < 60 →
      analyze_stock_raw code name (Except.ok rrows) = none) ∧
    (∀ (pre post : List (String × Except String (List RawRow)))
      (bad : String × Except String (List RawRow)),
      V4.process_stock bad.1 bad.2 = none →
      V4.scan (pre ++ bad :: post) = V4.scan (pre ++ post)) := by
  refine ⟨?_, ?_, ?_, ?_, ?_, ?_, ?_⟩
  · intro code e
    unfold V4.process_stock
    split
    · rfl
    · rfl
  · intro code rrows r hm hr
    unfold V4.process_stock
    split
    · rfl
    · simp only [parseRows_none hm hr]
  · intro code rrows hlen
    unfold V4.process_stock
    split
    · rfl
    · cases hp : parseRows rrows
      · simp only [hp]
      case some rows =>
        have hl := parseRows_length hp
        have hempty : check_all_strategies (toDF rows) = [] := by
          unfold check_all_strategies
          rw [if_pos]
          show (toDF rows).len < 65
          unfold DF.len toDF
          simp only [List.length_map]
          omega
        simp [hp, hempty]
  · intro code name e
    rfl
  · intro code name rrows r hm hr
    unfold analyze_stock_raw
    simp only [parseSRows_none hm hr]
  · intro code name rrows hlen
    unfold analyze_stock_raw
    cases hp : parseSRows rrows
    · simp only [hp]
    case some rows =>
      have hl := parseSRows_length hp
      simp only [hp]
      unfold analyze_stock
      rw [if_pos (by omega)]
  · intro pre post bad hbad
    unfold V4.scan
    rw [List.map_append, List.map_append, List.map_cons, hbad,
      List.reduceOption_append, List.reduceOption_append,
      List.reduceOption_cons_of_none]

/-- Witness for C7: a read error, a fully malformed row, an empty frame
(for both entry points) and the removal of a failing instrument from a
concrete scan. -/
theorem error_isolation_witness :
    V4.process_stock ("000001") (Except.error ("io")) = none ∧
    V4.process_stock ("000001") (Except.ok [badRow]) = none ∧
    V4.process_stock ("000001") (Except.ok []) = none ∧
    analyze_stock_raw ("000001") ("测试") (Except.error ("io")) = none ∧
    analyze_stock_raw ("000001") ("测试") (Except.ok [badSRow]) = none ∧
    analyze_stock_raw ("000001") ("测试") (Except.ok []) = none ∧
    V4.scan ([] ++ (("000001"), Except.error ("io")) :: []) = V4.scan ([] ++ []) :=
  ⟨error_isolation.1 ("000001") ("io"),
    error_isolation.2.1 ("000001") [badRow] badRow (by simp) (by rfl),
    error_isolation.2.2.1 ("000001") [] (by decide),
    error_isolation.2.2.2.1 ("000001") ("测试") ("io"),
    error_isolation.2.2.2.2.1 ("000001") ("测试") [badSRow] badSRow (by simp) (by rfl),
    error_isolation.2.2.2.2.2.1 ("000001") ("测试") [] (by decide),
    error_isolation.2.2.2.2.2.2 [] [] (("000001"), Except.error ("io"))
      (error_isolation.1 ("000001") ("io"))⟩

theorem smaAt_last (xs : List ℚ) (w n : ℕ) (hn : xs.length = n) (h1 : 1 ≤ n)
    (h2 : w ≤ n) : smaAt xs w (n - 1) = some (tailMean xs w) := by
  subst hn
  unfold smaAt tailMean
  rw [if_pos ⟨by omega, by omega⟩]
  have hidx : xs.length - 1 + 1 - w = xs.length - w := by omega
  rw [hidx]

theorem isSome_ite_bool {α : Type} (c : Bool) (r : α) :
    (if c then some r else none).isSome = c := by
  cases c <;> rfl

/-- C4: for a sufficiently long series under a name free of exclusion
marks, the composite retracement-confirm rule matches exactly when all
four sub-conditions hold over the trailing 6-bar window: a prior gain at
or above 9.8 among the five bars before today, MA13 above MA55 with
today's close at or above 0.99×MA13, yesterday's volume below 70 % of
the window's maximum before today, and today a gain above 1 % on volume
above both yesterday's and the 5-day average. -/
theorem analyze_stock_iff (code name : String) (rows : List SBar)
    (hlen : 60 ≤ rows.length) (hname : hasExcludedMark name = false) :
    (analyze_stock code name rows).isSome = true ↔
      ((∃ b ∈ (rows.drop (rows.length - 6)).take 5, b.pct_chg ≥ 9.8) ∧
       (tailMean (rows.map SBar.close) 13 > tailMean (rows.map SBar.close) 55 ∧
         (rows.getLastD ⟨0, 0, 0, 0, 0⟩).close ≥
           tailMean (rows.map SBar.close) 13 * 0.99) ∧
       (((rows.drop (rows.length - 6)).take 5).getLastD ⟨0, 0, 0, 0, 0⟩).volume <
         pyMax (((rows.drop (rows.length - 6)).take 5).map SBar.volume) * 0.7 ∧
       ((rows.getLastD ⟨0, 0, 0, 0, 0⟩).pct_chg > 1.0 ∧
        (rows.getLastD ⟨0, 0, 0, 0, 0⟩).volume >
          (((rows.drop (rows.length - 6)).take 5).getLastD ⟨0, 0, 0, 0, 0⟩).volume ∧
        (rows.getLastD ⟨0, 0, 0, 0, 0⟩).volume >
          tailMean (rows.map SBar.volume) 5)) := by
  unfold analyze_stock
  rw [if_neg (by omega), if_neg (by simp [hname]),
    smaAt_last (rows.map SBar.close) 13 rows.length (by simp) (by omega) (by omega),
    smaAt_last (rows.map SBar.close) 55 rows.length (by simp) (by omega) (by omega),
    smaAt_last (rows.map SBar.volume) 5 rows.length (by simp) (by omega) (by omega),
    isSome_ite_bool]
  simp only [Option.map_some', oGTo_some, geO_some, gtO_some, Bool.and_eq_true,
    decide_eq_true_eq, List.any_eq_true]
  tauto

/-- Witness for C4: the rule fires on the concrete 60-row frame `ex4`. -/
theorem analyze_stock_iff_witness :
    (analyze_stock ("000001") ("测试") ex4).isSome = true :=
  (analyze_stock_iff ("000001") ("测试") ex4 (by with_unfolding_all decide)
      (by with_unfolding_all rfl)).mpr (by with_unfolding_all decide)

theorem foldl_min_le_init (l : List ℕ) : ∀ a : ℕ, l.foldl min a ≤ a := by
  induction l with
  | nil => exact fun a => le_refl a
  | cons b t ih => exact fun a => le_trans (ih (min a b)) (min_le_left a b)

theorem foldl_min_le_mem (l : List ℕ) (x : ℕ) (h : x ∈ l) :
    ∀ a : ℕ, l.foldl min a ≤ x := by
  induction l with
  | nil => cases h
  | cons b t ih =>
    intro a
    rcases List.mem_cons.mp h with hx | hx
    · subst hx
      exact le_trans (foldl_min_le_init t (min a x)) (min_le_right a x)
    · exact ih hx (min a b)

theorem le_foldl_max_init (l : List ℕ) : ∀ a : ℕ, a ≤ l.foldl max a := by
  induction l with
  | nil => exact fun a => le_refl a
  | cons b t ih => exact fun a => le_trans (le_max_left a b) (ih (max a b))

theorem le_foldl_max_mem (l : List ℕ) (x : ℕ) (h : x ∈ l) :
    ∀ a : ℕ, x ≤ l.foldl max a := by
  induction l with
  | nil => cases h
  | cons b t ih =>
    intro a
    rcases List.mem_cons.mp h with hx | hx
    · subst hx
      exact le_trans (le_max_right a x) (le_foldl_max_init t (max a x))
    · exact ih hx (max a b)

theorem filterMap_ite {α β : Type} (l : List α) (p : α → Bool) (f : α → β) :
    l.filterMap (fun k => if p k then none else some (f k)) =
      (l.filter (fun k => !p k)).map f := by
  induction l with
  | nil => rfl
  | cons a t ih =>
    cases hpa : p a <;>
      simp [List.filterMap_cons, List.filter_cons, hpa, ih]

theorem present_weeks_range (s : List WBar)
    (hs : List.Pairwise (fun a b : WBar => a.date ≤ b.date) s) :
    (List.range' ((s.map Weekly.wkey).foldl min ((s.map Weekly.wkey).headD 0))
        ((s.map Weekly.wkey).foldl max ((s.map Weekly.wkey).headD 0) + 1 -
          (s.map Weekly.wkey).foldl min ((s.map Weekly.wkey).headD 0))).filter
      (fun k => !(s.filter (fun b => Weekly.wkey b == k)).isEmpty)
      = Weekly.presentWeeks s := by
  apply List.eq_of_perm_of_sorted (r := (fun a b : ℕ => a ≤ b))
  · refine (List.perm_ext_iff_of_nodup
      (List.Nodup.filter _ (List.nodup_range' _ _)) (List.nodup_dedup _)).mpr ?_
    intro a
    rw [List.mem_filter, List.mem_dedup, List.mem_range'_1]
    constructor
    · rintro ⟨_, hfil⟩
      have hne2 : s.filter (fun b => Weekly.wkey b == a) ≠ [] := by
        intro hnil
        rw [hnil] at hfil
        simp at hfil
      have hex : ∃ b ∈ s, (Weekly.wkey b == a) = true := by
        by_contra hcon
        push_neg at hcon
        exact hne2 (List.filter_eq_nil_iff.mpr hcon)
      rcases hex with ⟨b, hb, hba⟩
      rw [beq_iff_eq] at hba
      exact List.mem_map.mpr ⟨b, hb, hba⟩
    · intro ha
      rcases List.mem_map.mp ha with ⟨b, hb, hba⟩
      have hmem : Weekly.wkey b ∈ s.map Weekly.wkey := List.mem_map.mpr ⟨b, hb, rfl⟩
      have h0 := foldl_min_le_mem (s.map Weekly.wkey) _ hmem
        ((s.map Weekly.wkey).headD 0)
      have h1 := le_foldl_max_mem (s.map Weekly.wkey) _ hmem
        ((s.map Weekly.wkey).headD 0)
      refine ⟨⟨by omega, by omega⟩, ?_⟩
      have hbf : b ∈ s.filter (fun b' => Weekly.wkey b' == a) :=
        List.mem_filter.mpr ⟨hb, by simp [hba]⟩
      rcases hfe : s.filter (fun b' => Weekly.wkey b' == a) with _ | ⟨c, cs⟩
      · rw [hfe] at hbf
        cases hbf
      · rfl
  · exact List.Pairwise.filter _
      ((List.pairwise_lt_range' _ _).imp (fun h => le_of_lt h))
  · exact List.Pairwise.sublist (List.dedup_sublist _)
      (List.pairwise_map.mpr (hs.imp (fun h => Nat.div_le_div_right h)))

/-- C5: on a date-sorted daily series the weekly resampler produces one
bar per calendar week that has at least one contributing daily bar and no
bar for empty weeks — it equals the map of the per-week aggregation over
exactly the weeks present — and each weekly bar takes the week's first
open, maximal high, minimal low, last close, and the sum of the week's
volumes. -/
theorem resample_weekly_spec (s : List WBar)
    (hs : List.Pairwise (fun a b : WBar => a.date ≤ b.date) s) :
    Weekly.resample_weekly s =
      (Weekly.presentWeeks s).map
        (fun k => Weekly.aggWeek k (s.filter (fun b => Weekly.wkey b == k))) ∧
    (∀ k ∈ Weekly.presentWeeks s, s.filter (fun b => Weekly.wkey b == k) ≠ []) ∧
    (∀ (k : ℕ) (g : List WBar),
      (Weekly.aggWeek k g).opn = (g.headD ⟨0, 0, 0, 0, 0, 0⟩).opn ∧
      (Weekly.aggWeek k g).high = pyMax (g.map WBar.high) ∧
      (Weekly.aggWeek k g).low = pyMin (g.map WBar.low) ∧
      (Weekly.aggWeek k g).close = (g.getLastD ⟨0, 0, 0, 0, 0, 0⟩).close ∧
      (Weekly.aggWeek k g).volume = (g.map WBar.volume).sum) := by
  refine ⟨?_, ?_, ?_⟩
  · by_cases hne : s.isEmpty
    · rw [List.isEmpty_iff.mp hne]
      rfl
    · unfold Weekly.resample_weekly
      rw [if_neg hne, filterMap_ite, present_weeks_range s hs]
  · intro k hk
    rcases List.mem_map.mp (List.mem_dedup.mp hk) with ⟨b, hb, hwk⟩
    intro hcontra
    have hmem : b ∈ s.filter (fun b' => Weekly.wkey b' == k) :=
      List.mem_filter.mpr ⟨hb, by simp [hwk]⟩
    rw [hcontra] at hmem
    cases hmem
  · intro k g
    exact ⟨rfl, rfl, rfl, rfl, List.sum_eq_foldl.symm⟩

/-- Witness for C5: the 3-bar, 2-week series `s5`. -/
theorem resample_weekly_spec_witness :
    Weekly.resample_weekly s5 =
      (Weekly.presentWeeks s5).map
        (fun k => Weekly.aggWeek k (s5.filter (fun b => Weekly.wkey b == k))) ∧
    (∀ k ∈ Weekly.presentWeeks s5, s5.filter (fun b => Weekly.wkey b == k) ≠ []) :=
  ⟨(resample_weekly_spec s5 (by decide)).1, (resample_weekly_spec s5 (by decide)).2.1⟩
